import Mathlib

/-!
Verification of the s3-sync engine (src/main.go) against its specification.

The Go program is shallowly embedded: every remote S3 call is modelled by an
oracle value recorded in an environment structure (the outcome the service
would return for that call), and each Go function becomes a Lean function over
that environment, translated branch-for-branch from the source.  Go errors are
strings (the code classifies them by substring matching on err.Error()), so an
operation returning (value, error) is modelled as Except String value, and an
operation whose value is unused as Option String (some = the error message).
-/

/-- Character-list prefix test, used to implement substring containment. -/
def charsStart : List Char → List Char → Bool
  | _, [] => true
  | [], _ :: _ => false
  | c :: s, d :: t => c == d && charsStart s t

/-- Character-list substring containment. -/
def charsContain : List Char → List Char → Bool
  | [], pat => charsStart [] pat
  | c :: rest, pat => charsStart (c :: rest) pat || charsContain rest pat

/-- Model of Go strings.Contains(s, sub). -/
def goContains (s sub : String) : Bool :=
  charsContain s.toList sub.toList

/-- The not-found classification applied to a destination HeadObject error in
main.go line 129: strings.Contains(err.Error(), "NotFound") ||
strings.Contains(err.Error(), "404"). -/
def isNotFoundSig (e : String) : Bool :=
  goContains e "NotFound" || goContains e "404"

/-- The fields of an S3 HeadObject response that main.go reads: ContentLength,
ETag, StorageClass and the user metadata map. -/
structure HeadOutput where
  contentLength : Int
  etag : String
  storageClass : String
  metadata : List (String × String)
deriving DecidableEq

/-- Oracle outcomes for the four remote calls issued by copyAndVerifyObject
(main.go lines 241-295) for one key: head of the source object, get of the
source tag set, the server-side CopyObject call, and the verification re-head
of the destination object. -/
structure CopyEnv where
  srcHead : Except String HeadOutput
  srcTags : Except String (List (String × String))
  copyRes : Option String
  verifyHead : Except String HeadOutput

/-- Translation of copyAndVerifyObject (main.go lines 241-295): head the
source object, fetch its tags, issue the server-side copy, re-head the
destination, and succeed only when the re-head ContentLength and ETag equal
the sourceSize and sourceETag supplied by the caller. -/
def copyAndVerifyObject (cenv : CopyEnv) (key : String)
    (sourceSize : Int) (sourceETag : String) : Except String Unit :=
  match cenv.srcHead with
  | .error e => .error ("failed to head source object " ++ key ++ ": " ++ e)
  | .ok _ =>
    match cenv.srcTags with
    | .error e => .error ("failed to get source object tags for " ++ key ++ ": " ++ e)
    | .ok _ =>
      match cenv.copyRes with
      | some e => .error ("failed to copy object " ++ key ++ ": " ++ e)
      | none =>
        match cenv.verifyHead with
        | .error e => .error ("failed to verify copied object " ++ key ++ ": " ++ e)
        | .ok v =>
          if v.contentLength ≠ sourceSize ∨ v.etag ≠ sourceETag then
            .error ("verification failed for object " ++ key)
          else
            .ok ()

/-- The observable effect of one per-object unit of work in main.go lines
116-162: how much it adds to the copied counter, to the skipped counter and to
the progress bar, and the error it returns (none on success). -/
structure UnitEffect where
  dCopied : Nat
  dSkipped : Nat
  dProgress : Nat
  errMsg : Option String
deriving DecidableEq

/-- Translation of the per-object goroutine body of main.go lines 116-162
(after the semaphore acquire): head the destination object; on a not-found
error run copyAndVerifyObject and on its success increment copied and the
progress bar; on any other head error return a hard error; on a successful
head compare ContentLength and ETag with the listed size and etag, copying
(with the same accounting) on a difference and incrementing skipped and the
progress bar otherwise. -/
def processObject (destHead : Except String HeadOutput) (cenv : CopyEnv)
    (key : String) (size : Int) (etag : String) : UnitEffect :=
  match destHead with
  | .error e =>
    if isNotFoundSig e then
      match copyAndVerifyObject cenv key size etag with
      | .error m => { dCopied := 0, dSkipped := 0, dProgress := 0, errMsg := some m }
      | .ok _ => { dCopied := 1, dSkipped := 0, dProgress := 1, errMsg := none }
    else
      { dCopied := 0, dSkipped := 0, dProgress := 0,
        errMsg := some ("failed to head destination object " ++ key ++ ": " ++ e) }
  | .ok h =>
    if h.contentLength ≠ size ∨ h.etag ≠ etag then
      match copyAndVerifyObject cenv key size etag with
      | .error m => { dCopied := 0, dSkipped := 0, dProgress := 0, errMsg := some m }
      | .ok _ => { dCopied := 1, dSkipped := 0, dProgress := 1, errMsg := none }
    else
      { dCopied := 0, dSkipped := 1, dProgress := 1, errMsg := none }

/-- Whether the unit of work for a key reaches a copyAndVerifyObject call:
exactly the two branches of main.go lines 129-152 that contain one (head
failed with a not-found signal, or head succeeded with a size or etag
difference). -/
def copyCalled (destHead : Except String HeadOutput) (size : Int) (etag : String) : Bool :=
  match destHead with
  | .error e => isNotFoundSig e
  | .ok h => decide (h.contentLength ≠ size ∨ h.etag ≠ etag)

/-- The spec's per-key Sync Decision values. -/
inductive SyncDecision where
  | Absent
  | Stale
  | Current
deriving DecidableEq

/-- The change-detection branch of main.go lines 127-159, read off as a
function: the decision derived from the destination HeadObject outcome and
the listed source size and etag, or the hard per-object error the code
returns when the head fails without a not-found signal. -/
def changeDecision (destHead : Except String HeadOutput) (key : String)
    (size : Int) (etag : String) : Except String SyncDecision :=
  match destHead with
  | .error e =>
    if isNotFoundSig e then .ok .Absent
    else .error ("failed to head destination object " ++ key ++ ": " ++ e)
  | .ok h =>
    if h.contentLength ≠ size ∨ h.etag ≠ etag then .ok .Stale
    else .ok .Current

/-- An Object Descriptor as produced by the lister (the fields of an S3
listing entry that main.go reads: Key, Size, ETag). -/
structure ObjDesc where
  key : String
  size : Int
  etag : String
deriving DecidableEq

/-- Per-run oracles for the per-object remote calls: the outcome of the
destination HeadObject for each key, and the copy-phase outcomes for each
key. -/
structure WorldEnv where
  destHead : String → Except String HeadOutput
  copyEnvOf : String → CopyEnv

/-- The effect of the unit of work for one listed object under a given
environment. -/
def unitEffect (env : WorldEnv) (o : ObjDesc) : UnitEffect :=
  processObject (env.destHead o.key) (env.copyEnvOf o.key) o.key o.size o.etag

/-- main.go line 53-55: a non-positive configured concurrency falls back to
the default of 10. -/
def effectiveConcurrency (c : Int) : Int :=
  if c ≤ 0 then 10 else c

/-- State of the concurrent object-sync phase (main.go lines 108-163):
objects whose goroutine has not yet acquired a semaphore slot, objects
currently holding a slot, the two counters and the progress count guarded by
the mutex, and the first hard error recorded by the errgroup (none while no
unit has failed). -/
structure SchedState where
  pending : List ObjDesc
  admitted : List ObjDesc
  copied : Nat
  skipped : Nat
  progress : Nat
  firstErr : Option String
deriving DecidableEq

/-- One scheduling step of the errgroup/semaphore coordination of main.go
lines 108-168.  admit: a pending unit acquires a slot, possible only while
fewer than N slots are held and the errgroup context is not yet cancelled
(no first error recorded).  finish: a unit holding a slot runs its body to
completion, releases the slot (the deferred sem.Release fires on success and
failure alike), adds its effect to the counters, and — if it failed and no
error is recorded yet — becomes the errgroup's first error.  dropPending: after
the first error has cancelled the context, a pending unit's sem.Acquire
returns the cancellation error, so the unit ends without being admitted and
without touching the counters; the errgroup keeps the first error. -/
inductive SchedStep (env : WorldEnv) (N : Nat) : SchedState → SchedState → Prop where
  | acquire (s : SchedState) (o : ObjDesc)
      (ho : o ∈ s.pending) (he : s.firstErr = none) (hn : s.admitted.length < N) :
      SchedStep env N s
        { s with pending := s.pending.erase o, admitted := o :: s.admitted }
  | finish (s : SchedState) (o : ObjDesc) (ho : o ∈ s.admitted) :
      SchedStep env N s
        { pending := s.pending
          admitted := s.admitted.erase o
          copied := s.copied + (unitEffect env o).dCopied
          skipped := s.skipped + (unitEffect env o).dSkipped
          progress := s.progress + (unitEffect env o).dProgress
          firstErr :=
            match s.firstErr with
            | some m => some m
            | none => (unitEffect env o).errMsg }
  | dropPending (s : SchedState) (o : ObjDesc) (m : String)
      (ho : o ∈ s.pending) (he : s.firstErr = some m) :
      SchedStep env N s { s with pending := s.pending.erase o }

/-- The initial state of the object-sync phase: every listed object pending,
no slot held, zero counters, no error. -/
def initialSched (objs : List ObjDesc) : SchedState :=
  { pending := objs, admitted := [], copied := 0, skipped := 0,
    progress := 0, firstErr := none }

/-- States reachable by the object-sync phase started on a listing. -/
inductive SchedReach (env : WorldEnv) (N : Nat) (objs : List ObjDesc) : SchedState → Prop where
  | init : SchedReach env N objs (initialSched objs)
  | step (s s' : SchedState) :
      SchedReach env N objs s → SchedStep env N s s' → SchedReach env N objs s'


/-- Oracle outcomes for the remote calls issued by syncBucketConfig
(main.go lines 174-239): CreateBucket, GetBucketPolicy (ok (some p) = call
succeeded with a policy document, ok none = call succeeded but the Policy
field is nil), PutBucketPolicy, GetBucketVersioning (the Status string),
PutBucketVersioning, GetBucketLifecycleConfiguration (the Rules list, each
rule kept opaque as a string), PutBucketLifecycleConfiguration.  For the put
calls only the error matters (some = error message, none = success). -/
structure BucketEnv where
  createBucket : Option String
  getPolicy : Except String (Option String)
  putPolicy : Option String
  getVersioning : Except String String
  putVersioning : Option String
  getLifecycle : Except String (List String)
  putLifecycle : Option String

/-- The write calls syncBucketConfig issues against the destination, recorded
with their payloads so that verbatim propagation is checkable. -/
inductive BEvent where
  | createBucket
  | putPolicy (doc : String)
  | putVersioning (status : String)
  | putLifecycle (rules : List String)
deriving DecidableEq

/-- Result of syncBucketConfig: normal return without error, return with an
error, or the runtime panic the Go code hits when it evaluates err.Error()
while err is nil (the else-if branches at main.go lines 197 and 234 reached
with a nil err). -/
inductive SyncOutcome where
  | ok
  | error (msg : String)
  | panicNilErr
deriving DecidableEq

/-- The lifecycle step of syncBucketConfig (main.go lines 219-236): if the
get succeeded and the rule list is non-empty, put the full list to the
destination (a put failure is returned as an error); otherwise the code
evaluates strings.Contains(err.Error(), "NoSuchLifecycleConfiguration") — a
panic when err is nil (get succeeded with an empty list), a silent skip when
the error carries the not-configured signal, and a returned error
otherwise. -/
def lifecycleStep (env : BucketEnv) : SyncOutcome × List BEvent :=
  match env.getLifecycle with
  | .ok rules =>
    if 0 < rules.length then
      match env.putLifecycle with
      | some e => (.error ("failed to sync lifecycle rules: " ++ e), [.putLifecycle rules])
      | none => (.ok, [.putLifecycle rules])
    else (.panicNilErr, [])
  | .error e =>
    if goContains e "NoSuchLifecycleConfiguration" then (.ok, [])
    else (.error ("failed to get source lifecycle configuration: " ++ e), [])

/-- The versioning step of syncBucketConfig (main.go lines 201-217): a get
failure or a put failure is returned as an error; otherwise the fetched
status is written to the destination and control reaches the lifecycle
step. -/
def versioningStep (env : BucketEnv) : SyncOutcome × List BEvent :=
  match env.getVersioning with
  | .error e => (.error ("failed to get source bucket versioning: " ++ e), [])
  | .ok status =>
    match env.putVersioning with
    | some e => (.error ("failed to sync bucket versioning: " ++ e), [.putVersioning status])
    | none =>
      let r := lifecycleStep env
      (r.1, .putVersioning status :: r.2)

/-- The policy step of syncBucketConfig (main.go lines 184-199): if the get
succeeded and the Policy field is non-nil, write the document verbatim to the
destination (a put failure is returned as an error) and continue; otherwise
the code evaluates strings.Contains(err.Error(), "NoSuchBucketPolicy") — a
panic when err is nil (get succeeded with a nil Policy), a silent skip when
the error carries the not-configured signal, and a returned error
otherwise. -/
def policyStep (env : BucketEnv) : SyncOutcome × List BEvent :=
  match env.getPolicy with
  | .ok (some p) =>
    match env.putPolicy with
    | some e => (.error ("failed to sync bucket policy: " ++ e), [.putPolicy p])
    | none =>
      let r := versioningStep env
      (r.1, .putPolicy p :: r.2)
  | .ok none => (.panicNilErr, [])
  | .error e =>
    if goContains e "NoSuchBucketPolicy" then versioningStep env
    else (.error ("failed to get source bucket policy: " ++ e), [])

/-- Translation of syncBucketConfig (main.go lines 174-239): CreateBucket on
the destination, tolerating only BucketAlreadyOwnedByYou / BucketAlreadyExists
failures, then the policy, versioning and lifecycle steps in order. -/
def syncBucketConfig (env : BucketEnv) : SyncOutcome × List BEvent :=
  match env.createBucket with
  | some e =>
    if goContains e "BucketAlreadyOwnedByYou" || goContains e "BucketAlreadyExists" then
      let r := policyStep env
      (r.1, .createBucket :: r.2)
    else (.error ("failed to create destination bucket: " ++ e), [.createBucket])
  | none =>
    let r := policyStep env
    (r.1, .createBucket :: r.2)

/-- One page returned by ListObjectsV2: its contents and the
NextContinuationToken (none = field nil). -/
structure ListPage where
  contents : List ObjDesc
  next : Option String

/-- Translation of the listing loop of main.go lines 85-99 over the sequence
of page outcomes the service returns: pages are requested and concatenated
until a request fails (a fatal listing error) or a page carries no
continuation token (nil or empty).  The second component counts the list
requests issued. -/
def listPhase : List (Except String ListPage) → Except String (List ObjDesc) × Nat
  | [] => (.ok [], 0)
  | .error e :: _ => (.error e, 1)
  | .ok p :: rest =>
    match p.next with
    | none => (.ok p.contents, 1)
    | some t =>
      if t = "" then (.ok p.contents, 1)
      else
        match listPhase rest with
        | (.error e, n) => (.error e, n + 1)
        | (.ok objs, n) => (.ok (p.contents ++ objs), n + 1)

/-- The complete remote environment of one run of main: the bucket-config
oracles, the listing pages, and the per-object oracles. -/
structure MainEnv where
  bucket : BucketEnv
  pages : List (Except String ListPage)
  world : WorldEnv

/-- The coarse remote events of a run that the phase-ordering claims are
about: completion of the bucket-config phase, each ListObjectsV2 request,
each destination HeadObject of the change check, and each CopyObject
issued. -/
inductive Event where
  | bucketPhaseOk
  | listCall
  | headDest (key : String)
  | copyCall (key : String)
deriving DecidableEq

/-- The remote events one object's unit of work issues: the destination head,
then a copy exactly when the change check routes to copyAndVerifyObject. -/
def objEvents (w : WorldEnv) (o : ObjDesc) : List Event :=
  .headDest o.key ::
    (if copyCalled (w.destHead o.key) o.size o.etag then [.copyCall o.key] else [])

/-- The events of a run of main (main.go lines 79-171) in program order:
log.Fatalf on a bucket-config failure (or the nil-err panic) ends the process
before any listing, and a listing failure ends it before any object work. -/
def mainEvents (env : MainEnv) : List Event :=
  match (syncBucketConfig env.bucket).1 with
  | SyncOutcome.ok =>
    Event.bucketPhaseOk ::
      (match listPhase env.pages with
       | (.error _, n) => List.replicate n .listCall
       | (.ok objs, n) =>
         List.replicate n .listCall ++ objs.flatMap (objEvents env.world))
  | _ => []

/-- The first error among the per-object unit effects, in listing order. -/
def firstErrOf : List UnitEffect → Option String
  | [] => none
  | e :: rest =>
    match e.errMsg with
    | some m => some m
    | none => firstErrOf rest

/-- The terminal result of a run of main: a fatal bucket-config error, the
nil-err panic, a fatal listing error, a synchronization error from g.Wait, or
success with the final copied and skipped counters. -/
inductive RunResult where
  | fatalConfig (msg : String)
  | panicked
  | fatalList (msg : String)
  | fatalSync (msg : String)
  | success (copied skipped : Nat)
deriving DecidableEq

/-- The phase structure of main (main.go lines 79-171) as a run denotation:
syncBucketConfig first (an error is fatal, the nil-err panic ends the
process), then the listing loop (an error is fatal), then one unit of work
per listed object whose effects are aggregated into the counters, the first
unit error becoming the error g.Wait reports. -/
def mainRun (env : MainEnv) : RunResult :=
  match (syncBucketConfig env.bucket).1 with
  | .error m => .fatalConfig ("Failed to sync bucket configurations: " ++ m)
  | .panicNilErr => .panicked
  | .ok =>
    match (listPhase env.pages).1 with
    | .error m => .fatalList ("Failed to list source objects: " ++ m)
    | .ok objs =>
      let effs := objs.map (unitEffect env.world)
      match firstErrOf effs with
      | some m => .fatalSync ("Error during synchronization: " ++ m)
      | none =>
        .success ((effs.map UnitEffect.dCopied).sum) ((effs.map UnitEffect.dSkipped).sum)

/-- Claim C1: an object is counted toward the copied counter only if, after
the copy call, the re-head of the destination returns a size and etag equal
to the source size and etag supplied by the caller; a mismatch makes
copyAndVerifyObject return an error (never success), and whenever
copyAndVerifyObject errors the unit increments nothing and returns that
error — no silent skip or silent success. -/
theorem c1_verification_gating (d : Except String HeadOutput) (cenv : CopyEnv)
    (k : String) (s : Int) (t : String) :
    (copyAndVerifyObject cenv k s t = .ok () →
       ∃ v, cenv.verifyHead = .ok v ∧ v.contentLength = s ∧ v.etag = t)
    ∧ ((processObject d cenv k s t).dCopied = 1 → copyAndVerifyObject cenv k s t = .ok ())
    ∧ (∀ v, cenv.verifyHead = .ok v → (v.contentLength ≠ s ∨ v.etag ≠ t) →
        ∃ m, copyAndVerifyObject cenv k s t = .error m)
    ∧ (∀ m, copyAndVerifyObject cenv k s t = .error m →
        (processObject d cenv k s t).dCopied = 0)
    ∧ (∀ m, copyCalled d s t = true → copyAndVerifyObject cenv k s t = .error m →
        processObject d cenv k s t =
          { dCopied := 0, dSkipped := 0, dProgress := 0, errMsg := some m }) := by
  obtain ⟨sh, st, cr, vh⟩ := cenv
  refine ⟨?_, ?_, ?_, ?_, ?_⟩
  · intro hok
    cases sh <;> cases st <;> cases cr <;> cases vh <;>
      simp [copyAndVerifyObject] at hok ⊢
    exact hok
  · intro hcp
    cases d with
    | error e =>
      by_cases hnf : isNotFoundSig e = true
      · simp only [processObject, hnf, if_true] at hcp
        cases hcv : copyAndVerifyObject ⟨sh, st, cr, vh⟩ k s t with
        | error m => rw [hcv] at hcp; simp at hcp
        | ok u => cases u; rfl
      · rw [Bool.not_eq_true] at hnf
        simp [processObject, hnf] at hcp
    | ok h =>
      by_cases hc : h.contentLength ≠ s ∨ h.etag ≠ t
      · simp only [processObject, if_pos hc] at hcp
        cases hcv : copyAndVerifyObject ⟨sh, st, cr, vh⟩ k s t with
        | error m => rw [hcv] at hcp; simp at hcp
        | ok u => cases u; rfl
      · simp [processObject, if_neg hc] at hcp
  · intro v hv hm
    have hv' : vh = Except.ok v := hv
    subst hv'
    cases sh with
    | error e => exact ⟨_, rfl⟩
    | ok _ =>
      cases st with
      | error e => exact ⟨_, rfl⟩
      | ok _ =>
        cases cr with
        | some e => exact ⟨_, rfl⟩
        | none =>
          refine ⟨"verification failed for object " ++ k, ?_⟩
          simp only [copyAndVerifyObject]
          rw [if_pos hm]
  · intro m hcv
    cases d with
    | error e =>
      by_cases hnf : isNotFoundSig e = true
      · simp [processObject, hnf, hcv]
      · rw [Bool.not_eq_true] at hnf
        simp [processObject, hnf]
    | ok h =>
      by_cases hc : h.contentLength ≠ s ∨ h.etag ≠ t
      · simp [processObject, if_pos hc, hcv]
      · simp [processObject, if_neg hc]
  · intro m hcalled hcv
    cases d with
    | error e =>
      simp only [copyCalled] at hcalled
      simp [processObject, hcalled, hcv]
    | ok h =>
      simp only [copyCalled, decide_eq_true_eq] at hcalled
      simp [processObject, if_pos hcalled, hcv]

/-- A copy-phase environment in which every call succeeds and the
verification re-head matches size 10 and etag t1. -/
def wCopyEnvOk : CopyEnv :=
  { srcHead := .ok { contentLength := 10, etag := "t1", storageClass := "STANDARD", metadata := [] }
    srcTags := .ok []
    copyRes := none
    verifyHead := .ok { contentLength := 10, etag := "t1", storageClass := "STANDARD", metadata := [] } }

/-- A copy-phase environment in which every call succeeds but the
verification re-head returns a different etag. -/
def wCopyEnvBad : CopyEnv :=
  { srcHead := .ok { contentLength := 10, etag := "t1", storageClass := "STANDARD", metadata := [] }
    srcTags := .ok []
    copyRes := none
    verifyHead := .ok { contentLength := 10, etag := "zz", storageClass := "STANDARD", metadata := [] } }

/-- Witness for C1 at concrete inputs: a unit whose destination head reports
not-found and whose copy verifies counts one copy, and one whose re-head etag
mismatches ends as exactly the verification error with no increments. -/
theorem c1_verification_gating_witness :
    copyAndVerifyObject wCopyEnvOk "a" 10 "t1" = .ok ()
    ∧ processObject (.error "NotFound") wCopyEnvBad "a" 10 "t1" =
        { dCopied := 0, dSkipped := 0, dProgress := 0,
          errMsg := some "verification failed for object a" } :=
  ⟨(c1_verification_gating (.error "NotFound") wCopyEnvOk "a" 10 "t1").2.1 (by decide),
   (c1_verification_gating (.error "NotFound") wCopyEnvBad "a" 10 "t1").2.2.2.2
     "verification failed for object a" (by decide) rfl⟩

/-- Claim C2: the change decision is Absent exactly on a not-found head
failure, a hard per-object error on any other head failure, Stale exactly on
a successful head with a size or etag difference, Current exactly on a
successful head with both equal; Absent and Stale route the unit into
copyAndVerifyObject (whose outcome decides the unit), Current increments
skipped with no copy call, and a detection error is the unit's error. -/
theorem c2_change_decision (d : Except String HeadOutput) (cenv : CopyEnv)
    (k : String) (s : Int) (t : String) :
    (∀ e, d = .error e → isNotFoundSig e = true → changeDecision d k s t = .ok .Absent)
    ∧ (∀ e, d = .error e → isNotFoundSig e = false →
        changeDecision d k s t = .error ("failed to head destination object " ++ k ++ ": " ++ e))
    ∧ (∀ h, d = .ok h → (h.contentLength ≠ s ∨ h.etag ≠ t) →
        changeDecision d k s t = .ok .Stale)
    ∧ (∀ h, d = .ok h → h.contentLength = s → h.etag = t →
        changeDecision d k s t = .ok .Current)
    ∧ ((changeDecision d k s t = .ok .Absent ∨ changeDecision d k s t = .ok .Stale) →
        processObject d cenv k s t =
          (match copyAndVerifyObject cenv k s t with
           | .error m => { dCopied := 0, dSkipped := 0, dProgress := 0, errMsg := some m }
           | .ok _ => { dCopied := 1, dSkipped := 0, dProgress := 1, errMsg := none }))
    ∧ (changeDecision d k s t = .ok .Current →
        processObject d cenv k s t =
          { dCopied := 0, dSkipped := 1, dProgress := 1, errMsg := none }
        ∧ copyCalled d s t = false)
    ∧ (∀ m, changeDecision d k s t = .error m →
        processObject d cenv k s t =
          { dCopied := 0, dSkipped := 0, dProgress := 0, errMsg := some m }) := by
  refine ⟨?_, ?_, ?_, ?_, ?_, ?_, ?_⟩
  · intro e hd hnf
    subst hd
    simp [changeDecision, hnf]
  · intro e hd hnf
    subst hd
    simp [changeDecision, hnf]
  · intro h hd hc
    subst hd
    simp [changeDecision, if_pos hc]
  · intro h hd h1 h2
    subst hd
    have hc : ¬(h.contentLength ≠ s ∨ h.etag ≠ t) := by
      push_neg
      exact ⟨h1, h2⟩
    simp [changeDecision, if_neg hc]
  · intro hdec
    cases d with
    | error e =>
      by_cases hnf : isNotFoundSig e = true
      · simp [processObject, hnf]
      · rw [Bool.not_eq_true] at hnf
        simp [changeDecision, hnf] at hdec
    | ok h =>
      by_cases hc : h.contentLength ≠ s ∨ h.etag ≠ t
      · simp [processObject, if_pos hc]
      · simp [changeDecision, if_neg hc] at hdec
  · intro hdec
    cases d with
    | error e =>
      by_cases hnf : isNotFoundSig e = true
      · simp [changeDecision, hnf] at hdec
      · rw [Bool.not_eq_true] at hnf
        simp [changeDecision, hnf] at hdec
    | ok h =>
      by_cases hc : h.contentLength ≠ s ∨ h.etag ≠ t
      · simp [changeDecision, if_pos hc] at hdec
      · refine ⟨by simp [processObject, if_neg hc], ?_⟩
        simp only [copyCalled]
        rw [decide_eq_false hc]
  · intro m hdec
    cases d with
    | error e =>
      by_cases hnf : isNotFoundSig e = true
      · simp [changeDecision, hnf] at hdec
      · rw [Bool.not_eq_true] at hnf
        simp [changeDecision, hnf] at hdec
        simp [processObject, hnf, hdec]
    | ok h =>
      by_cases hc : h.contentLength ≠ s ∨ h.etag ≠ t
      · simp [changeDecision, if_pos hc] at hdec
      · simp [changeDecision, if_neg hc] at hdec

/-- A destination-head outcome equal in size and etag to the listed values
used by the witnesses below. -/
def wHeadCurrent : HeadOutput :=
  { contentLength := 10, etag := "t1", storageClass := "STANDARD", metadata := [] }

/-- Witness for C2 at concrete inputs: a matching destination head yields
decision Current and a skip with no copy call, and a not-found head failure
yields decision Absent. -/
theorem c2_change_decision_witness :
    (processObject (.ok wHeadCurrent) wCopyEnvOk "a" 10 "t1" =
        { dCopied := 0, dSkipped := 1, dProgress := 1, errMsg := none }
      ∧ copyCalled (.ok wHeadCurrent) 10 "t1" = false)
    ∧ changeDecision (.error "NotFound") "a" 10 "t1" = .ok .Absent :=
  ⟨(c2_change_decision (.ok wHeadCurrent) wCopyEnvOk "a" 10 "t1").2.2.2.2.2.1 rfl,
   (c2_change_decision (.error "NotFound") wCopyEnvOk "a" 10 "t1").1 "NotFound" rfl (by decide)⟩

/-- Claim C9: every unit of work ends in exactly one of the three outcomes —
one copied increment with one progress advance, one skipped increment with
one progress advance, or an error with no counter and no progress change —
and the progress advance always equals the copied-plus-skipped advance. -/
theorem c9_progress_exactly_once (d : Except String HeadOutput) (cenv : CopyEnv)
    (k : String) (s : Int) (t : String) :
    ((processObject d cenv k s t).dProgress =
        (processObject d cenv k s t).dCopied + (processObject d cenv k s t).dSkipped)
    ∧ (((processObject d cenv k s t).dCopied = 1 ∧ (processObject d cenv k s t).dSkipped = 0
          ∧ (processObject d cenv k s t).dProgress = 1
          ∧ (processObject d cenv k s t).errMsg = none)
       ∨ ((processObject d cenv k s t).dCopied = 0 ∧ (processObject d cenv k s t).dSkipped = 1
          ∧ (processObject d cenv k s t).dProgress = 1
          ∧ (processObject d cenv k s t).errMsg = none)
       ∨ ((processObject d cenv k s t).dCopied = 0 ∧ (processObject d cenv k s t).dSkipped = 0
          ∧ (processObject d cenv k s t).dProgress = 0
          ∧ ∃ m, (processObject d cenv k s t).errMsg = some m)) := by
  cases d with
  | error e =>
    by_cases hnf : isNotFoundSig e = true
    · cases hcv : copyAndVerifyObject cenv k s t with
      | error m =>
        simp [processObject, hnf, hcv]
      | ok u =>
        simp [processObject, hnf, hcv]
    · rw [Bool.not_eq_true] at hnf
      simp [processObject, hnf]
  | ok h =>
    by_cases hc : h.contentLength ≠ s ∨ h.etag ≠ t
    · cases hcv : copyAndVerifyObject cenv k s t with
      | error m =>
        simp [processObject, if_pos hc, hcv]
      | ok u =>
        simp [processObject, if_pos hc, hcv]
    · simp [processObject, if_neg hc]

/-- The slot-count invariant, by induction over reachability: no reachable
state of the object-sync phase holds more than N admission slots. -/
theorem schedAdmittedBound (env : WorldEnv) (N : Nat) (objs : List ObjDesc)
    (s : SchedState) (hr : SchedReach env N objs s) : s.admitted.length ≤ N := by
  induction hr with
  | init => simp [initialSched]
  | step s s' _ hstep ih =>
    cases hstep with
    | acquire o ho he hn => simpa using hn
    | finish o ho => exact le_trans (List.erase_sublist o s.admitted).length_le ih
    | dropPending o m ho he => simpa using ih

/-- Claim C5: in every reachable state of the object-sync phase at most N
units hold an admission slot, where N is the effective concurrency — the
configured value when positive and 10 when it is non-positive.  (In the step
relation a unit enters admitted before its per-object work is evaluated and
leaves it on every finish, success or failure alike.) -/
theorem c5_concurrency_ceiling (c : Int) (env : WorldEnv) (objs : List ObjDesc)
    (s : SchedState) (hr : SchedReach env ((effectiveConcurrency c).toNat) objs s) :
    s.admitted.length ≤ (effectiveConcurrency c).toNat
    ∧ (c ≤ 0 → effectiveConcurrency c = 10)
    ∧ (0 < c → effectiveConcurrency c = c) := by
  refine ⟨schedAdmittedBound env _ objs s hr, ?_, ?_⟩
  · intro hc
    simp [effectiveConcurrency, hc]
  · intro hc
    have hnc : ¬c ≤ 0 := by omega
    simp [effectiveConcurrency, hnc]

/-- A run environment in which every destination head reports not-found and
every copy phase succeeds with matching verification. -/
def wWorldEnv : WorldEnv :=
  { destHead := fun _ => .error "NotFound", copyEnvOf := fun _ => wCopyEnvOk }

/-- The object descriptor used by the scheduler witnesses. -/
def wObj : ObjDesc := { key := "a", size := 10, etag := "t1" }

/-- Witness for C5 at concrete inputs: the initial state of a run with
configured concurrency 0 is reachable and satisfies the ceiling with the
default of 10. -/
theorem c5_concurrency_ceiling_witness :
    (initialSched [wObj]).admitted.length ≤ (effectiveConcurrency 0).toNat
    ∧ ((0 : Int) ≤ 0 → effectiveConcurrency 0 = 10)
    ∧ ((0 : Int) < 0 → effectiveConcurrency 0 = 0) :=
  c5_concurrency_ceiling 0 wWorldEnv [wObj] (initialSched [wObj]) SchedReach.init

/-- Claim C4: the first recorded hard error is stable (it stays the run's
terminal error through every later step); a step that admits a new unit can
only happen while no error is recorded; a unit holding a slot can always run
to completion — its finish step is enabled whatever the recorded error, its
effect is added to the counters and its slot released; and when an error
first appears it is the error of a unit that was admitted. -/
theorem c4_first_failure (env : WorldEnv) (N : Nat) :
    (∀ s s' m, SchedStep env N s s' → s.firstErr = some m → s'.firstErr = some m)
    ∧ (∀ s s', SchedStep env N s s' → s.admitted.length < s'.admitted.length →
        s.firstErr = none)
    ∧ (∀ s o, o ∈ s.admitted →
        SchedStep env N s
          { pending := s.pending
            admitted := s.admitted.erase o
            copied := s.copied + (unitEffect env o).dCopied
            skipped := s.skipped + (unitEffect env o).dSkipped
            progress := s.progress + (unitEffect env o).dProgress
            firstErr :=
              match s.firstErr with
              | some m => some m
              | none => (unitEffect env o).errMsg })
    ∧ (∀ s s', SchedStep env N s s' → s.firstErr = none →
        s'.firstErr = none ∨ ∃ o, o ∈ s.admitted ∧ s'.firstErr = (unitEffect env o).errMsg) := by
  refine ⟨?_, ?_, ?_, ?_⟩
  · intro s s' m hstep hm
    cases hstep with
    | acquire o ho he hn => exact hm
    | finish o ho => simp [hm]
    | dropPending o m' ho he => exact hm
  · intro s s' hstep hlen
    cases hstep with
    | acquire o ho he hn => exact he
    | finish o ho =>
      exact absurd hlen (Nat.not_lt.mpr (List.erase_sublist o s.admitted).length_le)
    | dropPending o m ho he => exact absurd hlen (lt_irrefl _)
  · intro s o ho
    exact SchedStep.finish s o ho
  · intro s s' hstep hnone
    cases hstep with
    | acquire o ho he hn => exact Or.inl hnone
    | finish o ho =>
      right
      exact ⟨o, ho, by simp [hnone]⟩
    | dropPending o m ho he =>
      rw [hnone] at he
      exact absurd he (by simp)

/-- A state in which one unit holds a slot while a first error is already
recorded. -/
def wStateErr : SchedState :=
  { pending := [], admitted := [wObj], copied := 0, skipped := 0,
    progress := 0, firstErr := some "boom" }

/-- The state after the in-flight unit of wStateErr finishes: its copy
counted, its slot released, the recorded first error untouched. -/
def wStateErrDone : SchedState :=
  { pending := [], admitted := [], copied := 1, skipped := 0,
    progress := 1, firstErr := some "boom" }

/-- Witness for C4 at concrete inputs: from a state with a recorded error and
one admitted unit, the finish step is still enabled, counts the unit's copy,
and the recorded error survives it. -/
theorem c4_first_failure_witness :
    SchedStep wWorldEnv 1 wStateErr wStateErrDone
    ∧ wStateErrDone.firstErr = some "boom" := by
  have hstep : SchedStep wWorldEnv 1 wStateErr wStateErrDone := by
    have h := (c4_first_failure wWorldEnv 1).2.2.1 wStateErr wObj (List.mem_cons_self _ _)
    exact h
  exact ⟨hstep, (c4_first_failure wWorldEnv 1).1 wStateErr wStateErrDone "boom" hstep rfl⟩

/-- A unit of work whose destination head returns the listed size and etag
takes the up-to-date branch: one skip, one progress advance, no copy
accounting and no error. -/
theorem unitEffect_skip (env : WorldEnv) (o : ObjDesc) (h : HeadOutput)
    (hd : env.destHead o.key = .ok h) (h1 : h.contentLength = o.size)
    (h2 : h.etag = o.etag) :
    unitEffect env o = { dCopied := 0, dSkipped := 1, dProgress := 1, errMsg := none } := by
  have hc : ¬(h.contentLength ≠ o.size ∨ h.etag ≠ o.etag) := by
    push_neg
    exact ⟨h1, h2⟩
  simp [unitEffect, processObject, hd, if_neg hc]

/-- Run invariant for a fully up-to-date destination: while every listed key
heads at the destination with the listed size and etag, every reachable state
has no copies, no error, and its skip count plus unprocessed objects equal to
the listing size. -/
theorem schedSkipInvariant (env : WorldEnv) (N : Nat) (objs : List ObjDesc)
    (hmatch : ∀ o ∈ objs, ∃ h, env.destHead o.key = .ok h
        ∧ h.contentLength = o.size ∧ h.etag = o.etag)
    (s : SchedState) (hr : SchedReach env N objs s) :
    (∀ o ∈ s.pending, o ∈ objs) ∧ (∀ o ∈ s.admitted, o ∈ objs)
    ∧ s.firstErr = none ∧ s.copied = 0
    ∧ s.skipped + s.pending.length + s.admitted.length = objs.length := by
  induction hr with
  | init => simp [initialSched]
  | step s s' _ hstep ih =>
    obtain ⟨hpm, ham, hfe, hcp, hcount⟩ := ih
    cases hstep with
    | acquire o ho he hn =>
      have hlen := List.length_erase_of_mem ho
      have hpos := List.length_pos_of_mem ho
      refine ⟨fun x hx => hpm x (List.mem_of_mem_erase hx), ?_, hfe, hcp, ?_⟩
      · intro x hx
        rcases List.mem_cons.mp hx with hx | hx
        · exact hx ▸ hpm o ho
        · exact ham x hx
      · simp only [hlen, List.length_cons]
        omega
    | finish o ho =>
      have hobj := ham o ho
      obtain ⟨h, hd, h1, h2⟩ := hmatch o hobj
      have heff := unitEffect_skip env o h hd h1 h2
      have hlen := List.length_erase_of_mem ho
      have hpos := List.length_pos_of_mem ho
      refine ⟨hpm, fun x hx => ham x (List.mem_of_mem_erase hx), ?_, ?_, ?_⟩
      · simp [hfe, heff]
      · simp [hcp, heff]
      · simp only [heff, hlen]
        omega
    | dropPending o m ho he =>
      rw [hfe] at he
      exact absurd he (by simp)

/-- Claim C3: when the destination already holds, for every listed key, an
object whose size and etag equal the listed source values, any completed run
of the object-sync phase (no unit pending or in flight) ends with copied = 0,
skipped = the number of listed objects, no error, and no unit ever routes
into a copy call. -/
theorem c3_idempotence (env : WorldEnv) (N : Nat) (objs : List ObjDesc)
    (s : SchedState)
    (hmatch : ∀ o ∈ objs, ∃ h, env.destHead o.key = .ok h
        ∧ h.contentLength = o.size ∧ h.etag = o.etag)
    (hr : SchedReach env N objs s) (hp : s.pending = []) (ha : s.admitted = []) :
    s.copied = 0 ∧ s.skipped = objs.length ∧ s.firstErr = none
    ∧ ∀ o ∈ objs, copyCalled (env.destHead o.key) o.size o.etag = false := by
  obtain ⟨_, _, hfe, hcp, hcount⟩ := schedSkipInvariant env N objs hmatch s hr
  rw [hp, ha] at hcount
  simp only [List.length_nil] at hcount
  refine ⟨hcp, by omega, hfe, ?_⟩
  intro o ho
  obtain ⟨h, hd, h1, h2⟩ := hmatch o ho
  simp [copyCalled, hd, h1, h2]

/-- A run environment whose destination already holds every object with the
listed size and etag. -/
def wWorldEnvCurrent : WorldEnv :=
  { destHead := fun _ => .ok wHeadCurrent, copyEnvOf := fun _ => wCopyEnvOk }

/-- Intermediate state of the witness run: the single object admitted. -/
def wStateC3Mid : SchedState :=
  { pending := [], admitted := [wObj], copied := 0, skipped := 0,
    progress := 0, firstErr := none }

/-- Terminal state of the witness run: the single object skipped. -/
def wStateC3Done : SchedState :=
  { pending := [], admitted := [], copied := 0, skipped := 1,
    progress := 1, firstErr := none }

/-- Witness for C3 at concrete inputs: a complete one-object run against an
up-to-date destination ends with zero copies, one skip, no error, and no copy
call routed. -/
theorem c3_idempotence_witness :
    wStateC3Done.copied = 0 ∧ wStateC3Done.skipped = ([wObj] : List ObjDesc).length
    ∧ wStateC3Done.firstErr = none
    ∧ ∀ o ∈ ([wObj] : List ObjDesc),
        copyCalled (wWorldEnvCurrent.destHead o.key) o.size o.etag = false := by
  have hmatch : ∀ o ∈ ([wObj] : List ObjDesc), ∃ h, wWorldEnvCurrent.destHead o.key = .ok h
      ∧ h.contentLength = o.size ∧ h.etag = o.etag := by
    intro o ho
    simp only [List.mem_singleton] at ho
    subst ho
    exact ⟨wHeadCurrent, rfl, rfl, rfl⟩
  have s1 : SchedStep wWorldEnvCurrent 1 (initialSched [wObj]) wStateC3Mid :=
    SchedStep.acquire (initialSched [wObj]) wObj (List.mem_cons_self _ _) rfl (by decide)
  have s2 : SchedStep wWorldEnvCurrent 1 wStateC3Mid wStateC3Done :=
    SchedStep.finish wStateC3Mid wObj (List.mem_cons_self _ _)
  have r1 : SchedReach wWorldEnvCurrent 1 [wObj] wStateC3Mid :=
    SchedReach.step _ _ SchedReach.init s1
  have r2 : SchedReach wWorldEnvCurrent 1 [wObj] wStateC3Done :=
    SchedReach.step _ _ r1 s2
  exact c3_idempotence wWorldEnvCurrent 1 [wObj] wStateC3Done hmatch r2 rfl rfl

/-- The lifecycle step emits at most its own put: no events, or exactly one
putLifecycle. -/
theorem lifecycleStep_shape (env : BucketEnv) :
    (lifecycleStep env).2 = [] ∨ ∃ rs, (lifecycleStep env).2 = [BEvent.putLifecycle rs] := by
  cases hgl : env.getLifecycle with
  | ok rules =>
    by_cases h : 0 < rules.length
    · cases hpl : env.putLifecycle with
      | some e => exact Or.inr ⟨rules, by simp [lifecycleStep, hgl, hpl, h]⟩
      | none => exact Or.inr ⟨rules, by simp [lifecycleStep, hgl, hpl, h]⟩
    · exact Or.inl (by simp [lifecycleStep, hgl, h])
  | error e =>
    by_cases h : goContains e "NoSuchLifecycleConfiguration" = true
    · exact Or.inl (by simp [lifecycleStep, hgl, h])
    · exact Or.inl (by simp [lifecycleStep, hgl, h])

/-- No bucket-policy write is ever issued from the versioning step onwards. -/
theorem versioningStep_no_putPolicy (env : BucketEnv) (p : String) :
    BEvent.putPolicy p ∉ (versioningStep env).2 := by
  cases hv : env.getVersioning with
  | error e => simp [versioningStep, hv]
  | ok st =>
    cases hpv : env.putVersioning with
    | some e => simp [versioningStep, hv, hpv]
    | none =>
      rcases lifecycleStep_shape env with h | ⟨rs, h⟩ <;>
        simp [versioningStep, hv, hpv, h]

/-- Claim C7: with the destination bucket created, the policy step skips
silently (no policy write, the run proceeds to the versioning step) when the
source policy fetch fails with the NoSuchBucketPolicy signal; when a policy
document exists it is written verbatim to the destination, a put failure
making syncBucketConfig return an error; and any other fetch failure makes
syncBucketConfig return an error. -/
theorem c7_policy_step (env : BucketEnv) (hcb : env.createBucket = none) :
    (∀ e, env.getPolicy = .error e → goContains e "NoSuchBucketPolicy" = true →
        syncBucketConfig env = ((versioningStep env).1, .createBucket :: (versioningStep env).2)
        ∧ ∀ p, BEvent.putPolicy p ∉ (syncBucketConfig env).2)
    ∧ (∀ p, env.getPolicy = .ok (some p) →
        BEvent.putPolicy p ∈ (syncBucketConfig env).2
        ∧ (∀ e, env.putPolicy = some e →
            (syncBucketConfig env).1 = .error ("failed to sync bucket policy: " ++ e))
        ∧ (env.putPolicy = none → (syncBucketConfig env).1 = (versioningStep env).1))
    ∧ (∀ e, env.getPolicy = .error e → goContains e "NoSuchBucketPolicy" = false →
        (syncBucketConfig env).1 = .error ("failed to get source bucket policy: " ++ e)) := by
  have hsync : syncBucketConfig env = ((policyStep env).1, .createBucket :: (policyStep env).2) := by
    simp [syncBucketConfig, hcb]
  refine ⟨?_, ?_, ?_⟩
  · intro e hgp hsig
    have hps : policyStep env = versioningStep env := by
      simp [policyStep, hgp, hsig]
    refine ⟨by rw [hsync, hps], ?_⟩
    intro p
    rw [hsync, hps]
    simp only [List.mem_cons]
    rintro (h | h)
    · exact absurd h (by simp)
    · exact versioningStep_no_putPolicy env p h
  · intro p hgp
    cases hpp : env.putPolicy with
    | some e =>
      have hps : policyStep env =
          (.error ("failed to sync bucket policy: " ++ e), [.putPolicy p]) := by
        simp [policyStep, hgp, hpp]
      refine ⟨by simp [hsync, hps], ?_, ?_⟩
      · intro e' he'
        have : e = e' := by simpa using he'
        subst this
        simp [hsync, hps]
      · intro hn
        exact absurd hn (by simp)
    | none =>
      have hps : policyStep env =
          ((versioningStep env).1, .putPolicy p :: (versioningStep env).2) := by
        simp [policyStep, hgp, hpp]
      refine ⟨by simp [hsync, hps], ?_, fun _ => by simp [hsync, hps]⟩
      intro e' he'
      exact absurd he' (by simp)
  · intro e hgp hsig
    simp [hsync, policyStep, hgp, hsig]

/-- A bucket-config environment with a policy document present and every
write succeeding; the source has no lifecycle configuration. -/
def wBucketEnvPolicy : BucketEnv :=
  { createBucket := none
    getPolicy := .ok (some "POL")
    putPolicy := none
    getVersioning := .ok "Enabled"
    putVersioning := none
    getLifecycle := .error "NoSuchLifecycleConfiguration"
    putLifecycle := none }

/-- Witness for C7 at concrete inputs: with a policy document present the
policy is written verbatim (a putPolicy event with the fetched document) and
the run proceeds with the versioning step's outcome. -/
theorem c7_policy_step_witness :
    BEvent.putPolicy "POL" ∈ (syncBucketConfig wBucketEnvPolicy).2
    ∧ (syncBucketConfig wBucketEnvPolicy).1 = (versioningStep wBucketEnvPolicy).1 := by
  have h := (c7_policy_step wBucketEnvPolicy rfl).2.1 "POL" rfl
  exact ⟨h.1, h.2.2 rfl⟩

/-- Claim C8: past a benign prefix (bucket created, no source policy, a
versioning status written), the lifecycle step skips silently — the run
completes without error and without any lifecycle write — when the source
lifecycle fetch fails with the NoSuchLifecycleConfiguration signal; when the
fetched rule set is non-empty the full set is written verbatim, a put failure
making syncBucketConfig return an error; and any other fetch failure makes
syncBucketConfig return an error. -/
theorem c8_lifecycle_step (env : BucketEnv) (st : String)
    (hcb : env.createBucket = none)
    (hpol : env.getPolicy = .error "NoSuchBucketPolicy")
    (hver : env.getVersioning = .ok st)
    (hpv : env.putVersioning = none) :
    (∀ e, env.getLifecycle = .error e → goContains e "NoSuchLifecycleConfiguration" = true →
        (syncBucketConfig env).1 = .ok
        ∧ ∀ rs, BEvent.putLifecycle rs ∉ (syncBucketConfig env).2)
    ∧ (∀ rules, env.getLifecycle = .ok rules → 0 < rules.length →
        BEvent.putLifecycle rules ∈ (syncBucketConfig env).2
        ∧ (∀ e, env.putLifecycle = some e →
            (syncBucketConfig env).1 = .error ("failed to sync lifecycle rules: " ++ e))
        ∧ (env.putLifecycle = none → (syncBucketConfig env).1 = .ok))
    ∧ (∀ e, env.getLifecycle = .error e → goContains e "NoSuchLifecycleConfiguration" = false →
        (syncBucketConfig env).1 =
          .error ("failed to get source lifecycle configuration: " ++ e)) := by
  have hgc : goContains "NoSuchBucketPolicy" "NoSuchBucketPolicy" = true := by decide
  have hsync : syncBucketConfig env =
      ((lifecycleStep env).1, .createBucket :: .putVersioning st :: (lifecycleStep env).2) := by
    simp [syncBucketConfig, policyStep, versioningStep, hcb, hpol, hgc, hver, hpv]
  refine ⟨?_, ?_, ?_⟩
  · intro e hgl hsig
    have hls : lifecycleStep env = (.ok, []) := by
      simp [lifecycleStep, hgl, hsig]
    refine ⟨by simp [hsync, hls], ?_⟩
    intro rs
    simp [hsync, hls]
  · intro rules hgl hlen
    cases hpl : env.putLifecycle with
    | some e =>
      have hls : lifecycleStep env =
          (.error ("failed to sync lifecycle rules: " ++ e), [.putLifecycle rules]) := by
        simp [lifecycleStep, hgl, hpl, hlen]
      refine ⟨by simp [hsync, hls], ?_, ?_⟩
      · intro e' he'
        have : e = e' := by simpa using he'
        subst this
        simp [hsync, hls]
      · intro hn
        exact absurd hn (by simp)
    | none =>
      have hls : lifecycleStep env = (.ok, [.putLifecycle rules]) := by
        simp [lifecycleStep, hgl, hpl, hlen]
      refine ⟨by simp [hsync, hls], ?_, fun _ => by simp [hsync, hls]⟩
      intro e' he'
      exact absurd he' (by simp)
  · intro e hgl hsig
    simp [hsync, lifecycleStep, hgl, hsig]

/-- A bucket-config environment whose source has no policy and a non-empty
lifecycle rule set, with every write succeeding. -/
def wBucketEnvLC : BucketEnv :=
  { createBucket := none
    getPolicy := .error "NoSuchBucketPolicy"
    putPolicy := none
    getVersioning := .ok "Enabled"
    putVersioning := none
    getLifecycle := .ok ["rule1"]
    putLifecycle := none }

/-- A bucket-config environment whose source reports no lifecycle
configuration. -/
def wBucketEnvNoLC : BucketEnv :=
  { createBucket := none
    getPolicy := .error "NoSuchBucketPolicy"
    putPolicy := none
    getVersioning := .ok "Enabled"
    putVersioning := none
    getLifecycle := .error "NoSuchLifecycleConfiguration"
    putLifecycle := none }

/-- Witness for C8 at concrete inputs: with no lifecycle configuration at the
source the run completes without error, and with one rule present the rule
set is written verbatim and the run completes without error. -/
theorem c8_lifecycle_step_witness :
    (syncBucketConfig wBucketEnvNoLC).1 = .ok
    ∧ BEvent.putLifecycle ["rule1"] ∈ (syncBucketConfig wBucketEnvLC).2
    ∧ (syncBucketConfig wBucketEnvLC).1 = .ok := by
  have h1 := (c8_lifecycle_step wBucketEnvNoLC "Enabled" rfl rfl rfl rfl).1
    "NoSuchLifecycleConfiguration" rfl (by decide)
  have h2 := (c8_lifecycle_step wBucketEnvLC "Enabled" rfl rfl rfl rfl).2.1
    ["rule1"] rfl (by decide)
  exact ⟨h1.1, h2.1, h2.2.2 rfl⟩

/-- Claim C6: a run issues no listing request and no copy call before the
bucket-configuration phase has completed without error — when syncBucketConfig
returns an error the run ends as a fatal configuration failure with no object
event at all, and any list or copy event in a run's trace implies the
bucket-configuration phase completed with ok. -/
theorem c6_bucket_config_precedence (env : MainEnv) :
    (∀ m, (syncBucketConfig env.bucket).1 = .error m →
        mainEvents env = []
        ∧ mainRun env = .fatalConfig ("Failed to sync bucket configurations: " ++ m))
    ∧ (∀ k, Event.copyCall k ∈ mainEvents env → (syncBucketConfig env.bucket).1 = .ok)
    ∧ (Event.listCall ∈ mainEvents env → (syncBucketConfig env.bucket).1 = .ok) := by
  cases hb : (syncBucketConfig env.bucket).1 with
  | ok =>
    refine ⟨?_, fun _ _ => rfl, fun _ => rfl⟩
    intro m hm
    exact absurd hm (by simp)
  | error m0 =>
    refine ⟨?_, ?_, ?_⟩
    · intro m hm
      have hmm : m0 = m := by simpa using hm
      subst hmm
      exact ⟨by simp [mainEvents, hb], by simp [mainRun, hb]⟩
    · intro k hk
      simp [mainEvents, hb] at hk
    · intro hk
      simp [mainEvents, hb] at hk
  | panicNilErr =>
    refine ⟨?_, ?_, ?_⟩
    · intro m hm
      exact absurd hm (by simp)
    · intro k hk
      simp [mainEvents, hb] at hk
    · intro hk
      simp [mainEvents, hb] at hk

/-- A bucket-config environment whose destination bucket creation fails with
an error that is neither already-exists signal. -/
def wBucketEnvBad : BucketEnv :=
  { createBucket := some "AccessDenied"
    getPolicy := .error "NoSuchBucketPolicy"
    putPolicy := none
    getVersioning := .ok "Enabled"
    putVersioning := none
    getLifecycle := .error "NoSuchLifecycleConfiguration"
    putLifecycle := none }

/-- A run environment whose bucket-configuration phase fails at bucket
creation. -/
def wMainEnvBad : MainEnv :=
  { bucket := wBucketEnvBad
    pages := [.ok { contents := [wObj], next := none }]
    world := wWorldEnv }

/-- Witness for C6 at concrete inputs: a run whose bucket creation fails
fatally produces no remote object event and aborts as a configuration
failure. -/
theorem c6_bucket_config_precedence_witness :
    mainEvents wMainEnvBad = []
    ∧ mainRun wMainEnvBad =
        .fatalConfig ("Failed to sync bucket configurations: "
          ++ "failed to create destination bucket: AccessDenied") :=
  (c6_bucket_config_precedence wMainEnvBad).1
    "failed to create destination bucket: AccessDenied" rfl

/-- A bucket-config environment in which the lifecycle fetch succeeds with an
empty rule list: the Go code then evaluates err.Error() on a nil err. -/
def wBucketEnvNilErr : BucketEnv :=
  { createBucket := none
    getPolicy := .error "NoSuchBucketPolicy"
    putPolicy := none
    getVersioning := .ok "Enabled"
    putVersioning := none
    getLifecycle := .ok []
    putLifecycle := none }

/-- A bucket-config environment in which the policy fetch succeeds but the
Policy field is nil: the Go code then evaluates err.Error() on a nil err. -/
def wBucketEnvNilPolicy : BucketEnv :=
  { createBucket := none
    getPolicy := .ok none
    putPolicy := none
    getVersioning := .ok "Enabled"
    putVersioning := none
    getLifecycle := .error "NoSuchLifecycleConfiguration"
    putLifecycle := none }

/-- Claim C10 (code behaviour at the failing inputs): when the lifecycle
fetch succeeds with an empty rule list, or the policy fetch succeeds with a
nil policy document, syncBucketConfig does not return normally — it reaches
the nil-error dereference (err.Error() with err nil) in its not-configured
check, modelled as the panic outcome. -/
theorem c10_nil_error_panic :
    (syncBucketConfig wBucketEnvNilErr).1 = SyncOutcome.panicNilErr
    ∧ (syncBucketConfig wBucketEnvNilPolicy).1 = SyncOutcome.panicNilErr := by
  constructor
  · rfl
  · rfl
